import Mathlib

/-!
Shallow embedding of the degenbot swap-math core (Python) in Lean 4, with
theorems checking the natural-language specification against the code.

Conventions of the embedding:
- Python unbounded `int` is `Int`; Python floor division `//` is `Int.fdiv`
  (a division whose divisor may be zero is wrapped in `pydiv`, which raises
  the `ZeroDivisionError` kind exactly as Python does; divisions by the
  constant `10 ^ 18` cannot raise and are embedded as plain `Int.fdiv`).
- Fallible Python code (raise / try / except) is embedded in `Except Err`.
- Python `Fraction` (always a positive denominator) is a numerator/denominator
  pair; theorems carry positivity hypotheses where the `Fraction` invariant
  matters.
- Frozen dataclasses are Lean structures; attribute reads are projections.
-/

namespace Degenbot

/-- Exception kinds raised or mentioned by the modelled code.  `zeroDivision`
is Python's built-in `ZeroDivisionError`; `evmRevert`, `zeroSwap` and
`degenbotValueError` are the degenbot exception classes raised in the sources
(per the spec, `DegenbotValueError` is the library's `ValueError`);
`valueError` is Python's built-in `ValueError`; `convergenceError` is the
distinct convergence-failure kind named by the spec's error taxonomy (the
sources never construct it). -/
inductive Err where
  | zeroDivision
  | evmRevert (msg : String)
  | valueError (msg : String)
  | zeroSwap (msg : String)
  | degenbotValueError (msg : String)
  | convergenceError (msg : String)
  deriving DecidableEq, Repr

/-- Python floor division `a // b`: raises `ZeroDivisionError` when `b = 0`,
otherwise floors the exact quotient (`Int.fdiv`). -/
def pydiv (a b : Int) : Except Err Int :=
  if b = 0 then .error .zeroDivision else .ok (a.fdiv b)

/-- `degenbot.constants.MAX_UINT256`. -/
def MAX_UINT256 : Int := 2 ^ 256 - 1

/-- `degenbot.constants.MIN_UINT256`. -/
def MIN_UINT256 : Int := 0

/-- `solidly_functions.raise_if_invalid_uint256`. -/
def raise_if_invalid_uint256 (number : Int) : Except Err Unit :=
  if MIN_UINT256 ≤ number ∧ number ≤ MAX_UINT256 then .ok ()
  else .error (.evmRevert ("underflow/overflow for " ++ toString number))

/-- `solidly_functions._d`, the Newton derivative proxy. -/
def _d (x0 y : Int) : Int :=
  (3 * x0 * ((y * y).fdiv (10 ^ 18))).fdiv (10 ^ 18) +
    ((((x0 * x0).fdiv (10 ^ 18)) * x0).fdiv (10 ^ 18))

/-- `solidly_functions._f_aerodrome`, the stable-curve invariant on
18-decimal-scaled reserves. -/
def _f_aerodrome (x0 y : Int) : Int :=
  let _a := (x0 * y).fdiv (10 ^ 18)
  let _b := (x0 * x0).fdiv (10 ^ 18) + (y * y).fdiv (10 ^ 18)
  (_a * _b).fdiv (10 ^ 18)

/-- `solidly_functions._f_camelot`. -/
def _f_camelot (x0 y : Int) : Int :=
  (x0 * (((y * y).fdiv (10 ^ 18) * y).fdiv (10 ^ 18))).fdiv (10 ^ 18) +
    (((x0 * x0).fdiv (10 ^ 18) * x0).fdiv (10 ^ 18) * y).fdiv (10 ^ 18)

/-- `solidly_functions._k_aerodrome`: scale raw balances by their decimals,
evaluate the invariant, range-check the pre-division product. -/
def _k_aerodrome (balance_0 balance_1 decimals_0 decimals_1 : Int) :
    Except Err Int := do
  let _x ← pydiv (balance_0 * 10 ^ 18) decimals_0
  let _y ← pydiv (balance_1 * 10 ^ 18) decimals_1
  let _a := (_x * _y).fdiv (10 ^ 18)
  let _b := (_x * _x).fdiv (10 ^ 18) + (_y * _y).fdiv (10 ^ 18)
  raise_if_invalid_uint256 (_a * _b)
  return (_a * _b).fdiv (10 ^ 18)

/-- The body of `solidly_functions._get_y_aerodrome`'s `for _ in range(255)`
loop, as fuel recursion: fuel `0` is the post-loop
`raise EVMRevertError("Failed to converge on a value for y")`. -/
def aerodromeLoop : Nat → Int → Int → Int → Int → Int → Except Err Int
  | 0, _, _, _, _, _ =>
      .error (.evmRevert "Failed to converge on a value for y")
  | fuel + 1, x0, xy, y, decimals0, decimals1 => do
      let k := _f_aerodrome x0 y
      if k < xy then
        let dy ← pydiv ((xy - k) * 10 ^ 18) (_d x0 y)
        if dy = 0 then
          if k = xy then return y
          else do
            let ky1 ← _k_aerodrome x0 (y + 1) decimals0 decimals1
            if ky1 > xy then return (y + 1)
            else aerodromeLoop fuel x0 xy (y + 1) decimals0 decimals1
        else aerodromeLoop fuel x0 xy (y + dy) decimals0 decimals1
      else
        let dy ← pydiv ((k - xy) * 10 ^ 18) (_d x0 y)
        if dy = 0 then
          if k = xy ∨ _f_aerodrome x0 (y - 1) < xy then return y
          else aerodromeLoop fuel x0 xy (y - 1) decimals0 decimals1
        else aerodromeLoop fuel x0 xy (y - dy) decimals0 decimals1

/-- `solidly_functions._get_y_aerodrome`. -/
def _get_y_aerodrome (x0 xy y decimals0 decimals1 : Int) : Except Err Int :=
  aerodromeLoop 255 x0 xy y decimals0 decimals1

/-- The disjunction of the acceptance tests at `_get_y_aerodrome`'s `return`
statements: a value is only ever returned when the invariant already meets
the target (`xy ≤ _f_aerodrome x0 v`, covering the `k == xy` and the
`k >= xy, dy == 0` exits) or when the `_k_aerodrome(x0, y + 1) > xy` check
accepted it. -/
def aerodromeAccepted (x0 xy v decimals0 decimals1 : Int) : Prop :=
  xy ≤ _f_aerodrome x0 v ∨
    (∃ kk, _k_aerodrome x0 v decimals0 decimals1 = .ok kk ∧ xy < kk)

/-- The Newton update of one `_get_y_camelot` iteration (the value `y` holds
after the `if k < xy` statement). -/
def camelotNext (x_0 xy y : Int) : Except Err Int := do
  let k := _f_camelot x_0 y
  if k < xy then
    let dy ← pydiv ((xy - k) * 10 ^ 18) (_d x_0 y)
    return y + dy
  else
    let dy ← pydiv ((k - xy) * 10 ^ 18) (_d x_0 y)
    return y - dy

/-- The `for _ in range(255)` loop of `solidly_functions._get_y_camelot`:
fuel `0` is the post-loop `return y`. -/
def camelotLoop : Nat → Int → Int → Int → Except Err Int
  | 0, _, _, y => .ok y
  | fuel + 1, x_0, xy, y => do
      let y_prev := y
      let y' ← camelotNext x_0 xy y
      if y' > y_prev then
        if y' - y_prev ≤ 1 then return y' else camelotLoop fuel x_0 xy y'
      else
        if y_prev - y' ≤ 1 then return y' else camelotLoop fuel x_0 xy y'

/-- `solidly_functions._get_y_camelot`. -/
def _get_y_camelot (x_0 xy y : Int) : Except Err Int :=
  camelotLoop 255 x_0 xy y

/-- Python `fractions.Fraction`: numerator and (always positive) denominator. -/
structure Fraction where
  numerator : Int
  denominator : Int
  deriving DecidableEq, Repr

/-- The `try:` body of `solidly_functions.solidly_calc_exact_in_stable`. -/
def stableSwapBody (amount_in token_in reserves0 reserves1 decimals0
    decimals1 : Int) (fee : Fraction) : Except Err Int := do
  let feePart ← pydiv (amount_in * fee.numerator) fee.denominator
  let amount_in_after_fee := amount_in - feePart
  let xy ← _k_aerodrome reserves0 reserves1 decimals0 decimals1
  let scaled_reserves_0 ← pydiv (reserves0 * 10 ^ 18) decimals0
  let scaled_reserves_1 ← pydiv (reserves1 * 10 ^ 18) decimals1
  if token_in = 0 then
    let reserves_a := scaled_reserves_0
    let reserves_b := scaled_reserves_1
    let amount_in_scaled ← pydiv (amount_in_after_fee * 10 ^ 18) decimals0
    let yv ← _get_y_aerodrome (amount_in_scaled + reserves_a) xy reserves_b
      decimals0 decimals1
    let y := reserves_b - yv
    return (y * decimals1).fdiv (10 ^ 18)
  else if token_in = 1 then
    let reserves_a := scaled_reserves_1
    let reserves_b := scaled_reserves_0
    let amount_in_scaled ← pydiv (amount_in_after_fee * 10 ^ 18) decimals1
    let yv ← _get_y_aerodrome (amount_in_scaled + reserves_a) xy reserves_b
      decimals0 decimals1
    let y := reserves_b - yv
    return (y * decimals0).fdiv (10 ^ 18)
  else .error (.valueError "Invalid token_in identifier")

/-- `solidly_functions.solidly_calc_exact_in_stable`: the `try:` body with
`except ZeroDivisionError` re-raised as `EVMRevertError("Division by zero")`. -/
def solidly_calc_exact_in_stable (amount_in token_in reserves0 reserves1
    decimals0 decimals1 : Int) (fee : Fraction) : Except Err Int :=
  match stableSwapBody amount_in token_in reserves0 reserves1 decimals0
      decimals1 fee with
  | .error .zeroDivision => .error (.evmRevert "Division by zero")
  | r => r

/-- `solidly_functions.solidly_calc_exact_in_volatile`. -/
def solidly_calc_exact_in_volatile (amount_in token_in reserves0
    reserves1 : Int) (fee : Fraction) : Except Err Int := do
  let feePart ← pydiv (amount_in * fee.numerator) fee.denominator
  let amount_in_after_fee := amount_in - feePart
  if token_in = 0 then
    pydiv (amount_in_after_fee * reserves1) (reserves0 + amount_in_after_fee)
  else if token_in = 1 then
    pydiv (amount_in_after_fee * reserves0) (reserves1 + amount_in_after_fee)
  else .error (.valueError "Invalid token_in identifier")

/-- `functions.evm_divide` (round toward zero to match `sdiv`; the sources
never call it with a zero denominator, where Python would raise). -/
def evm_divide (numerator denominator : Int) : Int :=
  if numerator < 0 then -((-numerator).fdiv denominator)
  else numerator.fdiv denominator

/-- `uniswap.v3_libraries.unsafe_math.div_rounding_up` on `uint256` values. -/
def div_rounding_up (x y : Nat) : Nat :=
  (if y = 0 then 0 else x / y) +
    (if (if y = 0 then 0 else x % y) > 0 then 1 else 0)

/-- `aerodrome.types.AerodromeV2PoolState`, a frozen dataclass with the shape
of `uniswap.types.UniswapV2PoolState` (pool address plus both reserves).
Addresses are modelled as `Nat`; Lean's value semantics renders the frozen
(immutable) dataclass. -/
structure AerodromeV2PoolState where
  pool : Nat
  reserves_token0 : Int
  reserves_token1 : Int
  deriving DecidableEq, Repr

/-- The fields of `aerodrome.pools.AerodromeV2Pool` that the swap entry point
and the reserve setters touch.  Tokens are modelled by their address (`Nat`)
and their `decimals` value. -/
structure AerodromeV2Pool where
  token0 : Nat
  token1 : Nat
  token0_decimals : Nat
  token1_decimals : Nat
  fee : Fraction
  stable : Bool
  state : AerodromeV2PoolState
  deriving DecidableEq, Repr

/-- The `AerodromeV2Pool.reserves_token0` property setter: reads the current
state and replaces `self.state` with a newly constructed
`AerodromeV2PoolState`. -/
def set_reserves_token0 (self : AerodromeV2Pool) (new_reserves : Int) :
    AerodromeV2Pool :=
  let current_state := self.state
  { self with
    state :=
      { pool := current_state.pool
        reserves_token0 := new_reserves
        reserves_token1 := current_state.reserves_token1 } }

/-- The `AerodromeV2Pool.reserves_token1` property setter. -/
def set_reserves_token1 (self : AerodromeV2Pool) (new_reserves : Int) :
    AerodromeV2Pool :=
  let current_state := self.state
  { self with
    state :=
      { pool := current_state.pool
        reserves_token0 := current_state.reserves_token0
        reserves_token1 := new_reserves } }

/-- Modelled from the spec: `aerodrome.functions.calc_exact_in_stable` is
imported by the pool facade but its module is not under src/; per the spec it
is the section 4.1 stable-variant solver, i.e. the solidly stable exact-in
calculation present in src/. -/
def calc_exact_in_stable (amount_in token_in reserves0 reserves1 decimals0
    decimals1 : Int) (fee : Fraction) : Except Err Int :=
  solidly_calc_exact_in_stable amount_in token_in reserves0 reserves1
    decimals0 decimals1 fee

/-- Modelled from the spec: `solidly_functions.general_calc_exact_in_volatile`
is imported by the pool facade but absent from the src/ copy of
`solidly_functions.py` (which has `solidly_calc_exact_in_volatile`); per the
spec it is the section 4.1 volatile-variant solver. -/
def general_calc_exact_in_volatile (amount_in token_in reserves0
    reserves1 : Int) (fee : Fraction) : Except Err Int :=
  solidly_calc_exact_in_volatile amount_in token_in reserves0 reserves1 fee

/-- `AerodromeV2Pool.calculate_tokens_out_from_tokens_in`: validate the input
token, validate positivity of the input amount, resolve reserves from the
override state if supplied else from the live state, then dispatch on
`stable`. -/
def calculate_tokens_out_from_tokens_in (self : AerodromeV2Pool)
    (token_in : Nat) (token_in_quantity : Int)
    (override_state : Option AerodromeV2PoolState) : Except Err Int :=
  if token_in ≠ self.token0 ∧ token_in ≠ self.token1 then
    .error (.degenbotValueError "token_in not recognized.")
  else
    let TOKEN_IN : Int := if token_in = self.token0 then 0 else 1
    if token_in_quantity ≤ 0 then
      .error (.zeroSwap "token_in_quantity must be positive")
    else
      let reserves_0 :=
        match override_state with
        | some o => o.reserves_token0
        | none => self.state.reserves_token0
      let reserves_1 :=
        match override_state with
        | some o => o.reserves_token1
        | none => self.state.reserves_token1
      if self.stable then
        calc_exact_in_stable token_in_quantity TOKEN_IN reserves_0 reserves_1
          ((10 : Int) ^ self.token0_decimals) ((10 : Int) ^ self.token1_decimals)
          self.fee
      else
        general_calc_exact_in_volatile token_in_quantity TOKEN_IN reserves_0
          reserves_1 self.fee

end Degenbot

deriving instance DecidableEq for Except

set_option maxRecDepth 40000

namespace Degenbot

/-- Reduction of a successful `Except` bind (the embedding's sequencing). -/
@[simp] theorem ok_bind {α β : Type} (a : α) (f : α → Except Err β) :
    (Except.ok a >>= f) = f a := rfl

/-- Reduction of a failed `Except` bind: the error short-circuits. -/
@[simp] theorem error_bind {α β : Type} (e : Err) (f : α → Except Err β) :
    ((Except.error e : Except Err α) >>= f) = Except.error e := rfl

/-- Helper: a successful Python division determines its value. -/
theorem pydiv_ok_val {a b q : Int} (h : pydiv a b = .ok q) : q = a.fdiv b := by
  unfold pydiv at h
  split at h
  · exact absurd h (by simp)
  · simpa using h.symm

/-- Helper: scaling by `10 ^ 18` and flooring back is the identity, so the
18-decimals scaling divisions always succeed and cancel. -/
theorem pydiv_mul_E18 (a : Int) : pydiv (a * 10 ^ 18) (10 ^ 18) = .ok a := by
  have hne : ((10 : Int) ^ 18) ≠ 0 := by norm_num
  simp [pydiv, hne, Int.mul_fdiv_cancel _ hne]

/-- Helper: when the uint256 range check succeeds inside a bind, the
continuation value is the overall value. -/
theorem raise_if_bind_ok {α : Type} (x : Int) (f : Unit → Except Err α)
    (v : α) (h : (raise_if_invalid_uint256 x >>= f) = .ok v) : f () = .ok v := by
  unfold raise_if_invalid_uint256 at h
  split at h
  · simpa using h
  · exact absurd h (by simp)

/-- Helper: with both decimals equal to `10 ^ 18`, a successful
`_k_aerodrome` computes exactly `_f_aerodrome` (the scaling is the
identity). -/
theorem k_aerodrome_E18_ok (b0 b1 kk : Int)
    (h : _k_aerodrome b0 b1 (10 ^ 18) (10 ^ 18) = .ok kk) :
    kk = _f_aerodrome b0 b1 := by
  rw [_k_aerodrome, pydiv_mul_E18, ok_bind, pydiv_mul_E18, ok_bind] at h
  simp only [] at h
  have h2 := raise_if_bind_ok _ _ _ h
  simpa [_f_aerodrome, pure, Except.pure] using h2.symm

/-- Helper: whatever the fuel, a value returned by the aerodrome Newton loop
was accepted by one of the loop's own convergence tests. -/
theorem aerodromeLoop_ok_accepted (fuel : Nat) :
    ∀ x0 xy y d0 d1 v : Int,
      aerodromeLoop fuel x0 xy y d0 d1 = .ok v →
      aerodromeAccepted x0 xy v d0 d1 := by
  induction fuel with
  | zero =>
    intro x0 xy y d0 d1 v h
    exact absurd h (by simp [aerodromeLoop])
  | succ n ih =>
    intro x0 xy y d0 d1 v h
    simp only [aerodromeLoop] at h
    by_cases hk : _f_aerodrome x0 y < xy
    · rw [if_pos hk] at h
      cases hdy : pydiv ((xy - _f_aerodrome x0 y) * 10 ^ 18) (_d x0 y) with
      | error e => rw [hdy, error_bind] at h; exact absurd h (by simp)
      | ok dy =>
        rw [hdy, ok_bind] at h
        by_cases hdy0 : dy = 0
        · rw [if_pos hdy0] at h
          by_cases hkxy : _f_aerodrome x0 y = xy
          · rw [if_pos hkxy] at h
            simp only [pure, Except.pure, Except.ok.injEq] at h
            subst h
            exact Or.inl (le_of_eq hkxy.symm)
          · rw [if_neg hkxy] at h
            cases hky : _k_aerodrome x0 (y + 1) d0 d1 with
            | error e => rw [hky, error_bind] at h; exact absurd h (by simp)
            | ok kk =>
              rw [hky, ok_bind] at h
              by_cases hgt : kk > xy
              · rw [if_pos hgt] at h
                simp only [pure, Except.pure, Except.ok.injEq] at h
                subst h
                exact Or.inr ⟨kk, hky, hgt⟩
              · rw [if_neg hgt] at h
                exact ih _ _ _ _ _ _ h
        · rw [if_neg hdy0] at h
          exact ih _ _ _ _ _ _ h
    · rw [if_neg hk] at h
      cases hdy : pydiv ((_f_aerodrome x0 y - xy) * 10 ^ 18) (_d x0 y) with
      | error e => rw [hdy, error_bind] at h; exact absurd h (by simp)
      | ok dy =>
        rw [hdy, ok_bind] at h
        by_cases hdy0 : dy = 0
        · rw [if_pos hdy0] at h
          by_cases hc : _f_aerodrome x0 y = xy ∨ _f_aerodrome x0 (y - 1) < xy
          · rw [if_pos hc] at h
            simp only [pure, Except.pure, Except.ok.injEq] at h
            subst h
            exact Or.inl (le_of_not_lt hk)
          · rw [if_neg hc] at h
            exact ih _ _ _ _ _ _ h
        · rw [if_neg hdy0] at h
          exact ih _ _ _ _ _ _ h

/-- Helper: with 18-decimals scaling, a value returned by the aerodrome
Newton loop satisfies the curve invariant at or above the target. -/
theorem aerodromeLoop_E18_f_ge (fuel : Nat) (x0 xy y v : Int)
    (h : aerodromeLoop fuel x0 xy y (10 ^ 18) (10 ^ 18) = .ok v) :
    xy ≤ _f_aerodrome x0 v := by
  rcases aerodromeLoop_ok_accepted fuel x0 xy y _ _ v h with hle | ⟨kk, hkk, hgt⟩
  · exact hle
  · rw [k_aerodrome_E18_ok _ _ _ hkk] at hgt
    exact hgt.le

/-- Helper: a successful stable-swap calculation means the `try:` body itself
succeeded with the same value (the wrapper only remaps errors). -/
theorem calc_stable_ok_body_ok (amount_in token_in reserves0 reserves1
    decimals0 decimals1 : Int) (fee : Fraction) (amount_out : Int)
    (h : solidly_calc_exact_in_stable amount_in token_in reserves0 reserves1
      decimals0 decimals1 fee = .ok amount_out) :
    stableSwapBody amount_in token_in reserves0 reserves1 decimals0 decimals1
      fee = .ok amount_out := by
  revert h
  unfold solidly_calc_exact_in_stable
  cases hb : stableSwapBody amount_in token_in reserves0 reserves1 decimals0
      decimals1 fee with
  | ok v => exact fun h => h
  | error e => cases e <;> exact fun h => absurd h (by simp)

/-- C8: assigning through the `reserves_token0` setter replaces the pool's
state with a newly built state whose `reserves_token1` and `pool` fields equal
those of the previous state, and symmetrically for the `reserves_token1`
setter.  The previous state is a value the setter only reads (the embedding's
value semantics renders the frozen dataclass: no in-place mutation exists). -/
theorem reserve_setters_replace_whole_state (self : AerodromeV2Pool)
    (new_reserves : Int) :
    ((set_reserves_token0 self new_reserves).state.reserves_token0 =
        new_reserves ∧
      (set_reserves_token0 self new_reserves).state.reserves_token1 =
        self.state.reserves_token1 ∧
      (set_reserves_token0 self new_reserves).state.pool = self.state.pool) ∧
    ((set_reserves_token1 self new_reserves).state.reserves_token1 =
        new_reserves ∧
      (set_reserves_token1 self new_reserves).state.reserves_token0 =
        self.state.reserves_token0 ∧
      (set_reserves_token1 self new_reserves).state.pool = self.state.pool) :=
  ⟨⟨rfl, rfl, rfl⟩, ⟨rfl, rfl, rfl⟩⟩

/-- C9 counterexample: with a negative denominator `evm_divide` does not round
toward zero (`Int.tdiv` is truncated, i.e. round-toward-zero, division): the
exact quotient 7 / (-2) = -3.5 truncates to -3, but `evm_divide` returns -4. -/
theorem evm_divide_negative_denominator_counterexample :
    evm_divide 7 (-2) = -4 ∧ Int.tdiv 7 (-2) = -3 := by decide

/-- C9 (amended): for every positive denominator `evm_divide` rounds the exact
quotient toward zero (it agrees with truncated division `Int.tdiv`), and for
every denominator it equals `numerator // denominator` for a non-negative
numerator and `-((-numerator) // denominator)` otherwise (`//` is Python
floor division, `Int.fdiv`). -/
theorem evm_divide_round_toward_zero :
    (∀ numerator denominator : Int, 0 < denominator →
      evm_divide numerator denominator = numerator.tdiv denominator) ∧
    (∀ numerator denominator : Int,
      evm_divide numerator denominator =
        if numerator < 0 then -((-numerator).fdiv denominator)
        else numerator.fdiv denominator) := by
  refine ⟨fun n d hd => ?_, fun n d => rfl⟩
  unfold evm_divide
  by_cases hn : n < 0
  · rw [if_pos hn, Int.fdiv_eq_ediv _ hd.le,
      ← Int.tdiv_eq_ediv (by omega : (0 : Int) ≤ -n) hd.le, Int.neg_tdiv,
      neg_neg]
  · rw [if_neg hn, Int.fdiv_eq_ediv _ hd.le,
      ← Int.tdiv_eq_ediv (by omega : (0 : Int) ≤ n) hd.le]

/-- C9 witness: the amended theorem applied at numerator -7, denominator 2. -/
theorem evm_divide_round_toward_zero_witness :
    (0 : Int) < 2 ∧ evm_divide (-7) 2 = Int.tdiv (-7) 2 :=
  ⟨by decide, evm_divide_round_toward_zero.1 (-7) 2 (by decide)⟩

/-- C10: `div_rounding_up` is total: a zero divisor is explicitly guarded and
yields 0 rather than a division-by-zero error, while for every positive
divisor the result is the exact ceiling of `x / y` (it equals
`(x + y - 1) / y`, and it is the least `n` with `x ≤ y * n`, expressed by the
two bounds `x ≤ y * result < x + y`). -/
theorem div_rounding_up_total_exact_ceiling :
    (∀ x : Nat, div_rounding_up x 0 = 0) ∧
    (∀ x y : Nat, 0 < y →
      div_rounding_up x y = (x + y - 1) / y ∧
      x ≤ y * div_rounding_up x y ∧
      y * div_rounding_up x y < x + y) := by
  refine ⟨fun x => by simp [div_rounding_up], fun x y hy => ?_⟩
  have hyne : y ≠ 0 := hy.ne'
  obtain ⟨q, r, hrlt, rfl⟩ : ∃ q r, r < y ∧ x = y * q + r :=
    ⟨x / y, x % y, Nat.mod_lt x hy, (Nat.div_add_mod x y).symm⟩
  have hdiv : (y * q + r) / y = q := by
    rw [Nat.mul_add_div hy, Nat.div_eq_of_lt hrlt, Nat.add_zero]
  have hmod : (y * q + r) % y = r := by
    rw [Nat.mul_add_mod, Nat.mod_eq_of_lt hrlt]
  have e1 : y * (q + 1) = y * q + y := by ring
  unfold div_rounding_up
  rw [if_neg hyne, if_neg hyne, hdiv, hmod]
  simp only [gt_iff_lt]
  by_cases hr : 0 < r
  · rw [if_pos hr]
    have hceil : (y * q + r + y - 1) / y = q + 1 := by
      have hsplit : y * q + r + y - 1 = (r - 1) + y * (q + 1) := by omega
      rw [hsplit, Nat.add_mul_div_left _ _ hy, Nat.div_eq_of_lt (by omega),
        Nat.zero_add]
    exact ⟨hceil.symm, by omega, by omega⟩
  · rw [if_neg hr]
    have hr0 : r = 0 := by omega
    subst hr0
    have hceil : (y * q + 0 + y - 1) / y = q := by
      have hsplit : y * q + 0 + y - 1 = (y - 1) + y * q := by omega
      rw [hsplit, Nat.add_mul_div_left _ _ hy, Nat.div_eq_of_lt (by omega),
        Nat.zero_add]
    have e0 : y * (q + 0) = y * q := by ring
    exact ⟨by omega, by omega, by omega⟩

/-- Helper: every `camelotLoop` run either returns a value or stops on the
raw division-by-zero error (a zero `_d` at some iterate); no other outcome
exists. -/
theorem camelotLoop_ok_or_zeroDivision (fuel : Nat) :
    ∀ x_0 xy y : Int,
      (∃ v, camelotLoop fuel x_0 xy y = .ok v) ∨
        camelotLoop fuel x_0 xy y = .error .zeroDivision := by
  induction fuel with
  | zero => exact fun x_0 xy y => Or.inl ⟨y, rfl⟩
  | succ n ih =>
    intro x_0 xy y
    by_cases hd : _d x_0 y = 0
    · right
      simp [camelotLoop, camelotNext, pydiv, hd]
    · have hnext : camelotNext x_0 xy y =
          .ok (if _f_camelot x_0 y < xy
            then y + ((xy - _f_camelot x_0 y) * 10 ^ 18).fdiv (_d x_0 y)
            else y - ((_f_camelot x_0 y - xy) * 10 ^ 18).fdiv (_d x_0 y)) := by
        simp only [camelotNext, pydiv, if_neg hd, ok_bind]
        split <;> rfl
      rw [show camelotLoop (n + 1) x_0 xy y =
          camelotNext x_0 xy y >>= (fun y' =>
            if y' > y then
              if y' - y ≤ 1 then .ok y' else camelotLoop n x_0 xy y'
            else
              if y - y' ≤ 1 then .ok y' else camelotLoop n x_0 xy y') from rfl,
        hnext, ok_bind]
      split_ifs <;> first
        | exact Or.inl ⟨_, rfl⟩
        | exact ih _ _ _

/-- C5: the camelot Newton variant performs at most 255 iterations and,
whenever no iterate divides by zero in `_d`, always returns an integer:
exhausting the iteration budget returns the current iterate silently (fuel 0
returns `y`), and an iteration whose update lands within distance 1 of the
previous iterate returns it immediately. -/
theorem camelot_silent_termination :
    (∀ x_0 xy y : Int, camelotLoop 0 x_0 xy y = .ok y) ∧
    (∀ x_0 xy y : Int, _get_y_camelot x_0 xy y ≠ .error .zeroDivision →
      ∃ v, _get_y_camelot x_0 xy y = .ok v) ∧
    (∀ (n : Nat) (x_0 xy y y' : Int), camelotNext x_0 xy y = .ok y' →
      y' - y ≤ 1 → y - y' ≤ 1 → camelotLoop (n + 1) x_0 xy y = .ok y') := by
  refine ⟨fun _ _ y => rfl, fun x_0 xy y h => ?_, ?_⟩
  · rcases camelotLoop_ok_or_zeroDivision 255 x_0 xy y with hv | hzd
    · exact hv
    · exact absurd hzd h
  · intro n x_0 xy y y' hnext h1 h2
    rw [show camelotLoop (n + 1) x_0 xy y =
        camelotNext x_0 xy y >>= (fun z =>
          if z > y then
            if z - y ≤ 1 then .ok z else camelotLoop n x_0 xy z
          else
            if y - z ≤ 1 then .ok z else camelotLoop n x_0 xy z) from rfl,
      hnext, ok_bind]
    split_ifs <;> first
      | rfl
      | (exfalso; omega)

/-- C5 witness: the theorem applied at fuel 0, at a converging camelot call
(x_0 = 2e18, k already equal to xy, first update distance 0), and at the
single-step return. -/
theorem camelot_silent_termination_witness :
    camelotLoop 0 5 7 9 = .ok 9 ∧
    (∃ v, _get_y_camelot (2 * 10 ^ 18) (10 * 10 ^ 18) (10 ^ 18) = .ok v) ∧
    camelotLoop 254 (2 * 10 ^ 18) (10 * 10 ^ 18) (10 ^ 18) =
      .ok (10 ^ 18) := by
  refine ⟨camelot_silent_termination.1 5 7 9,
    camelot_silent_termination.2.1 _ _ _ (by decide), ?_⟩
  exact camelot_silent_termination.2.2 253 _ _ _ (10 ^ 18) (by decide)
    (by decide) (by decide)

/-- Helper: evaluation of the volatile solver for `token_in = 0` when no
division by zero occurs. -/
theorem volatile_eval_token0 (amount_in reserves0 reserves1 : Int)
    (fee : Fraction) (hfd : fee.denominator ≠ 0)
    (hden : reserves0 +
      (amount_in - (amount_in * fee.numerator).fdiv fee.denominator) ≠ 0) :
    solidly_calc_exact_in_volatile amount_in 0 reserves0 reserves1 fee =
      .ok (((amount_in - (amount_in * fee.numerator).fdiv fee.denominator) *
          reserves1).fdiv
        (reserves0 +
          (amount_in - (amount_in * fee.numerator).fdiv fee.denominator))) := by
  simp [solidly_calc_exact_in_volatile, pydiv, hfd, hden]

/-- Helper: evaluation of the volatile solver for `token_in = 1` when no
division by zero occurs. -/
theorem volatile_eval_token1 (amount_in reserves0 reserves1 : Int)
    (fee : Fraction) (hfd : fee.denominator ≠ 0)
    (hden : reserves1 +
      (amount_in - (amount_in * fee.numerator).fdiv fee.denominator) ≠ 0) :
    solidly_calc_exact_in_volatile amount_in 1 reserves0 reserves1 fee =
      .ok (((amount_in - (amount_in * fee.numerator).fdiv fee.denominator) *
          reserves0).fdiv
        (reserves1 +
          (amount_in - (amount_in * fee.numerator).fdiv fee.denominator))) := by
  simp [solidly_calc_exact_in_volatile, pydiv, hfd, hden]

/-- Helper: the post-fee amount `a - a*fn//fd` is positive for a positive
amount and a fee fraction in [0, 1). -/
theorem afterFee_pos {a fn fd : Int} (hfn : 0 ≤ fn) (hlt : fn < fd)
    (ha : 0 < a) : 0 < a - (a * fn).fdiv fd := by
  have hfd : 0 < fd := lt_of_le_of_lt hfn hlt
  rw [Int.fdiv_eq_ediv _ hfd.le]
  have h1 : a * fn / fd < a := by
    rw [Int.ediv_lt_iff_lt_mul hfd]
    exact mul_lt_mul_of_pos_left hlt ha
  omega

/-- Helper: the post-fee amount is non-decreasing in the input amount for a
fee fraction in [0, 1). -/
theorem afterFee_mono {a a' fn fd : Int} (hfn : 0 ≤ fn) (hlt : fn < fd)
    (haa : a ≤ a') :
    a - (a * fn).fdiv fd ≤ a' - (a' * fn).fdiv fd := by
  have hfd : 0 < fd := lt_of_le_of_lt hfn hlt
  rw [Int.fdiv_eq_ediv _ hfd.le, Int.fdiv_eq_ediv _ hfd.le]
  have h2 : (a' - a) * fn ≤ (a' - a) * fd :=
    mul_le_mul_of_nonneg_left hlt.le (by omega)
  have h1 : a' * fn ≤ a * fn + (a' - a) * fd := by nlinarith [h2]
  have key : a' * fn / fd ≤ a * fn / fd + (a' - a) := by
    calc a' * fn / fd ≤ (a * fn + (a' - a) * fd) / fd :=
          Int.ediv_le_ediv hfd h1
      _ = a * fn / fd + (a' - a) := Int.add_mul_ediv_right _ _ hfd.ne'
  omega

/-- Helper: the constant-product output `b * rout // (rin + b)` is
non-decreasing in the post-fee input `b`. -/
theorem cpmm_div_mono {b b' rin rout : Int} (hrin : 0 < rin)
    (hrout : 0 ≤ rout) (hb : 0 ≤ b) (hbb : b ≤ b') :
    (b * rout).fdiv (rin + b) ≤ (b' * rout).fdiv (rin + b') := by
  have hpos : 0 < rin + b := by omega
  have hpos' : 0 < rin + b' := by omega
  rw [Int.fdiv_eq_ediv _ hpos.le, Int.fdiv_eq_ediv _ hpos'.le]
  rw [Int.le_ediv_iff_mul_le hpos']
  have h1 : b * rout / (rin + b) * (rin + b) ≤ b * rout :=
    Int.ediv_mul_le _ hpos.ne'
  have hk0 : 0 ≤ b * rout / (rin + b) :=
    Int.ediv_nonneg (mul_nonneg hb hrout) hpos.le
  have h2 : b * rout * (rin + b') ≤ b' * rout * (rin + b) := by
    nlinarith [mul_nonneg (mul_nonneg (sub_nonneg.2 hbb) hrout) hrin.le]
  have h3 : b * rout / (rin + b) * (rin + b') * (rin + b) ≤
      b' * rout * (rin + b) := by
    calc b * rout / (rin + b) * (rin + b') * (rin + b)
        = b * rout / (rin + b) * (rin + b) * (rin + b') := by ring
      _ ≤ b * rout * (rin + b') := mul_le_mul_of_nonneg_right h1 hpos'.le
      _ ≤ b' * rout * (rin + b) := h2
  exact le_of_mul_le_mul_right h3 hpos

/-- Helper: the constant-product output is strictly below the output-token
reserve. -/
theorem cpmm_lt_rout {b rin rout : Int} (hrin : 0 < rin) (hrout : 0 < rout)
    (hb : 0 ≤ b) : (b * rout).fdiv (rin + b) < rout := by
  have hpos : 0 < rin + b := by omega
  rw [Int.fdiv_eq_ediv _ hpos.le, Int.ediv_lt_iff_lt_mul hpos]
  nlinarith

/-- C6: for positive reserves on both sides and a fee fraction in [0, 1), the
volatile (constant-product) exact-in output is monotonically non-decreasing
in the input amount, and is strictly less than the output-token reserve for
every positive input amount. -/
theorem volatile_monotone_and_bounded (token_in reserves0 reserves1 : Int)
    (fee : Fraction) (amount_in amount_in' : Int)
    (htok : token_in = 0 ∨ token_in = 1)
    (hr0 : 0 < reserves0) (hr1 : 0 < reserves1)
    (hfn : 0 ≤ fee.numerator) (hflt : fee.numerator < fee.denominator)
    (ha : 0 < amount_in) (haa : amount_in ≤ amount_in') :
    ∃ out out',
      solidly_calc_exact_in_volatile amount_in token_in reserves0 reserves1
        fee = .ok out ∧
      solidly_calc_exact_in_volatile amount_in' token_in reserves0 reserves1
        fee = .ok out' ∧
      out ≤ out' ∧
      out < (if token_in = 0 then reserves1 else reserves0) ∧
      out' < (if token_in = 0 then reserves1 else reserves0) := by
  have hfd : 0 < fee.denominator := lt_of_le_of_lt hfn hflt
  have ha' : 0 < amount_in' := lt_of_lt_of_le ha haa
  have hb : 0 < amount_in -
      (amount_in * fee.numerator).fdiv fee.denominator :=
    afterFee_pos hfn hflt ha
  have hb' : 0 < amount_in' -
      (amount_in' * fee.numerator).fdiv fee.denominator :=
    afterFee_pos hfn hflt ha'
  have hbb := @afterFee_mono amount_in amount_in' fee.numerator
    fee.denominator hfn hflt haa
  rcases htok with h | h <;> subst h
  · refine ⟨_, _, volatile_eval_token0 amount_in reserves0 reserves1 fee
      hfd.ne' (by omega), volatile_eval_token0 amount_in' reserves0 reserves1
      fee hfd.ne' (by omega), cpmm_div_mono hr0 hr1.le hb.le hbb, ?_, ?_⟩
    · simpa using cpmm_lt_rout hr0 hr1 hb.le
    · simpa using cpmm_lt_rout hr0 hr1 hb'.le
  · refine ⟨_, _, volatile_eval_token1 amount_in reserves0 reserves1 fee
      hfd.ne' (by omega), volatile_eval_token1 amount_in' reserves0 reserves1
      fee hfd.ne' (by omega), cpmm_div_mono hr1 hr0.le hb.le hbb, ?_, ?_⟩
    · simpa using cpmm_lt_rout hr1 hr0 hb.le
    · simpa using cpmm_lt_rout hr1 hr0 hb'.le

/-- C6 witness: the theorem applied at reserves 100/100, fee 3/1000, input
amounts 5 and 7. -/
theorem volatile_monotone_and_bounded_witness :
    ∃ out out',
      solidly_calc_exact_in_volatile 5 0 100 100 ⟨3, 1000⟩ = .ok out ∧
      solidly_calc_exact_in_volatile 7 0 100 100 ⟨3, 1000⟩ = .ok out' ∧
      out ≤ out' ∧
      out < (if (0 : Int) = 0 then (100 : Int) else 100) ∧
      out' < (if (0 : Int) = 0 then (100 : Int) else 100) :=
  volatile_monotone_and_bounded 0 100 100 ⟨3, 1000⟩ 5 7 (Or.inl rfl)
    (by decide) (by decide) (by decide) (by decide) (by decide) (by decide)

/-- C10 witness: the theorem applied at x = 7 with divisors 0 and 3. -/
theorem div_rounding_up_total_exact_ceiling_witness :
    div_rounding_up 7 0 = 0 ∧ 0 < 3 ∧
      (div_rounding_up 7 3 = (7 + 3 - 1) / 3 ∧
        7 ≤ 3 * div_rounding_up 7 3 ∧ 3 * div_rounding_up 7 3 < 7 + 3) :=
  ⟨div_rounding_up_total_exact_ceiling.1 7, by decide,
    div_rounding_up_total_exact_ceiling.2 7 3 (by decide)⟩

/-- C1: for a positive input amount, a token index in {0, 1}, a fee fraction
(positive denominator, per the `Fraction` invariant) and a nonzero post-fee
denominator, `solidly_calc_exact_in_volatile` returns exactly
`floor(a * reserve_out / (reserve_in + a))` with
`a = amount_in - floor(amount_in * fee_num / fee_den)`. -/
theorem solidly_volatile_exact_in_formula (amount_in token_in reserves0
    reserves1 : Int) (fee : Fraction) (hamt : 0 < amount_in)
    (htok : token_in = 0 ∨ token_in = 1) (hden : 0 < fee.denominator)
    (hnz : (if token_in = 0 then reserves0 else reserves1) +
      (amount_in - (amount_in * fee.numerator).fdiv fee.denominator) ≠ 0) :
    solidly_calc_exact_in_volatile amount_in token_in reserves0 reserves1
        fee =
      .ok (((amount_in - (amount_in * fee.numerator).fdiv fee.denominator) *
          (if token_in = 0 then reserves1 else reserves0)).fdiv
        ((if token_in = 0 then reserves0 else reserves1) +
          (amount_in - (amount_in * fee.numerator).fdiv fee.denominator))) := by
  rcases htok with h | h <;> subst h <;>
    simp_all [solidly_calc_exact_in_volatile, pydiv, hden.ne']

/-- C1 witness: the theorem applied at the spec's volatile scenario shape
(1000 units in, equal reserves, 0.3% fee). -/
theorem solidly_volatile_exact_in_formula_witness :
    (0 : Int) < 1000 ∧
    solidly_calc_exact_in_volatile 1000 0 (10 ^ 6) (10 ^ 6) ⟨3, 1000⟩ =
      .ok 996 := by
  refine ⟨by decide, ?_⟩
  have h := solidly_volatile_exact_in_formula 1000 0 (10 ^ 6) (10 ^ 6)
    ⟨3, 1000⟩ (by decide) (Or.inl rfl) (by decide) (by decide)
  rw [h]; decide

/-- C4: a `ZeroDivisionError` arising inside the stable-swap body (the
`_d = 0` degenerate-reserves case) is caught by
`solidly_calc_exact_in_stable` and re-raised as
`EVMRevertError("Division by zero")`, and the raw `ZeroDivisionError` kind
never propagates to the caller for any input. -/
theorem stable_division_by_zero_caught (amount_in token_in reserves0 reserves1
    decimals0 decimals1 : Int) (fee : Fraction) :
    (stableSwapBody amount_in token_in reserves0 reserves1 decimals0 decimals1
        fee = .error .zeroDivision →
      solidly_calc_exact_in_stable amount_in token_in reserves0 reserves1
        decimals0 decimals1 fee = .error (.evmRevert "Division by zero")) ∧
    solidly_calc_exact_in_stable amount_in token_in reserves0 reserves1
      decimals0 decimals1 fee ≠ .error .zeroDivision := by
  unfold solidly_calc_exact_in_stable
  constructor
  · intro h; rw [h]
  · intro hcon
    cases hb : stableSwapBody amount_in token_in reserves0 reserves1 decimals0
        decimals1 fee with
    | ok v => rw [hb] at hcon; simp at hcon
    | error e => rw [hb] at hcon; cases e <;> simp_all

/-- C4 witness: near-empty reserves (one wei each side of an 18-decimals
pool) drive `_d` to zero; the body raises the raw `ZeroDivisionError` and the
wrapper converts it. -/
theorem stable_division_by_zero_caught_witness :
    stableSwapBody 1 0 1 1 (10 ^ 18) (10 ^ 18) ⟨0, 1⟩ =
        .error .zeroDivision ∧
    solidly_calc_exact_in_stable 1 0 1 1 (10 ^ 18) (10 ^ 18) ⟨0, 1⟩ =
      .error (.evmRevert "Division by zero") := by
  have hb : stableSwapBody 1 0 1 1 (10 ^ 18) (10 ^ 18) ⟨0, 1⟩ =
      .error .zeroDivision := by decide
  exact ⟨hb,
    (stable_division_by_zero_caught 1 0 1 1 (10 ^ 18) (10 ^ 18) ⟨0, 1⟩).1 hb⟩

/-- C3 counterexample: a concrete input on which `_get_y_aerodrome` exhausts
all 255 iterations (the Newton update enters a 2-cycle): the failure is
raised as the general `EVMRevertError` simulated-revert kind with message
"Failed to converge on a value for y", not as a distinct
convergence-failure error kind. -/
theorem aerodrome_nonconvergence_error_kind_counterexample :
    _get_y_aerodrome 189317657100083 2047794426929391 801181688438372
        (10 ^ 6) (10 ^ 18) =
      .error (.evmRevert "Failed to converge on a value for y") := by decide

/-- C3 (amended): `_get_y_aerodrome` performs at most 255 iterations — when
the fuel is exhausted it fails with
`EVMRevertError("Failed to converge on a value for y")` (the same exception
class as other simulated reverts, distinguished only by its message), and it
never returns an approximate result: every returned value was accepted by
one of the loop's convergence tests. -/
theorem aerodrome_iteration_cap_and_no_approximation :
    (∀ x0 xy y decimals0 decimals1 : Int,
      aerodromeLoop 0 x0 xy y decimals0 decimals1 =
        .error (.evmRevert "Failed to converge on a value for y")) ∧
    (∀ x0 xy y decimals0 decimals1 v : Int,
      _get_y_aerodrome x0 xy y decimals0 decimals1 = .ok v →
      aerodromeAccepted x0 xy v decimals0 decimals1) :=
  ⟨fun _ _ _ _ _ => rfl,
    fun x0 xy y d0 d1 v h => aerodromeLoop_ok_accepted 255 x0 xy y d0 d1 v h⟩

/-- C3 witness: the amended theorem applied at a converging call (the first
iterate already satisfies `k = xy`). -/
theorem aerodrome_iteration_cap_and_no_approximation_witness :
    _get_y_aerodrome (2 * 10 ^ 18) (10 * 10 ^ 18) (10 ^ 18) (10 ^ 18)
        (10 ^ 18) = .ok (10 ^ 18) ∧
    aerodromeAccepted (2 * 10 ^ 18) (10 * 10 ^ 18) (10 ^ 18) (10 ^ 18)
      (10 ^ 18) := by
  have h : _get_y_aerodrome (2 * 10 ^ 18) (10 * 10 ^ 18) (10 ^ 18) (10 ^ 18)
      (10 ^ 18) = .ok (10 ^ 18) := by decide
  exact ⟨h,
    aerodrome_iteration_cap_and_no_approximation.2 _ _ _ _ _ _ h⟩

/-- C2 counterexample: a stable swap that returns normally (tokens with 6 and
18 decimals, reserves 850 and 559622e18, 1% fee, amount_in 1137) for which
the curve invariant at the post-swap reserves — whether `_k_aerodrome` on
the raw post-swap reserves (input reserve + post-fee input 1126, output
reserve − returned amount) or `_f_aerodrome` on the post-swap scaled
reserves — is 88092731 units BELOW the pre-swap `k`, far beyond a tolerance
of 1. -/
theorem stable_swap_invariant_decrease_counterexample :
    solidly_calc_exact_in_stable 1137 0 850 559622000000000000000000 (10 ^ 6)
        (10 ^ 18) ⟨1, 100⟩ = .ok 137175119243480813174290 ∧
    _k_aerodrome 850 559622000000000000000000 (10 ^ 6) (10 ^ 18) =
      .ok 148971524952443371143677860750000 ∧
    _k_aerodrome (850 + 1126)
        (559622000000000000000000 - 137175119243480813174290) (10 ^ 6)
        (10 ^ 18) = .ok 148971524952443371143677772657269 ∧
    _f_aerodrome (1976 * 10 ^ 12)
        (559622000000000000000000 - 137175119243480813174290) =
      148971524952443371143677772657269 ∧
    (148971524952443371143677772657269 : Int) + 1 <
      148971524952443371143677860750000 :=
  ⟨by decide, by decide, by decide, by decide, by decide⟩

/-- C2 (amended): for pools whose two tokens both use 18 decimals (where the
`_k_aerodrome` scaling is the identity, so the solver's early-accept branch
checks the true invariant), every normally returning stable exact-in swap
leaves the curve invariant at the post-swap scaled reserves at or above the
pre-swap `k`, with no tolerance needed.  (For other decimals the early-accept
branch double-scales the already-scaled reserves and can accept a value whose
invariant is below `k`, per the counterexample.) -/
theorem stable_swap_invariant_nondecreasing_18_decimals
    (amount_in token_in reserves0 reserves1 : Int) (fee : Fraction)
    (amount_out : Int)
    (h : solidly_calc_exact_in_stable amount_in token_in reserves0 reserves1
      (10 ^ 18) (10 ^ 18) fee = .ok amount_out) :
    _f_aerodrome reserves0 reserves1 ≤
      _f_aerodrome
        ((amount_in - (amount_in * fee.numerator).fdiv fee.denominator) +
          (if token_in = 0 then reserves0 else reserves1))
        ((if token_in = 0 then reserves1 else reserves0) - amount_out) := by
  have hbody := calc_stable_ok_body_ok _ _ _ _ _ _ _ _ h
  unfold stableSwapBody at hbody
  cases hfee : pydiv (amount_in * fee.numerator) fee.denominator with
  | error e => rw [hfee, error_bind] at hbody; exact absurd hbody (by simp)
  | ok q =>
    rw [hfee, ok_bind] at hbody
    have hq := pydiv_ok_val hfee
    cases hxy : _k_aerodrome reserves0 reserves1 (10 ^ 18) (10 ^ 18) with
    | error e => rw [hxy, error_bind] at hbody; exact absurd hbody (by simp)
    | ok xy =>
      rw [hxy, ok_bind, pydiv_mul_E18, ok_bind, pydiv_mul_E18, ok_bind]
        at hbody
      have hxyval := k_aerodrome_E18_ok _ _ _ hxy
      have hne : ((10 : Int) ^ 18) ≠ 0 := by norm_num
      by_cases ht0 : token_in = 0
      · rw [if_pos ht0] at hbody
        rw [pydiv_mul_E18, ok_bind] at hbody
        cases hyv : _get_y_aerodrome (amount_in - q + reserves0) xy reserves1
            (10 ^ 18) (10 ^ 18) with
        | error e => rw [hyv, error_bind] at hbody; exact absurd hbody (by simp)
        | ok yv =>
          rw [hyv, ok_bind] at hbody
          simp only [] at hbody
          rw [Int.mul_fdiv_cancel _ hne] at hbody
          simp only [pure, Except.pure, Except.ok.injEq] at hbody
          have hge := aerodromeLoop_E18_f_ge 255 (amount_in - q + reserves0)
            xy reserves1 yv hyv
          rw [if_pos ht0, if_pos ht0, ← hq, ← hbody]
          have hyy : reserves1 - (reserves1 - yv) = yv := by ring
          rw [hyy, ← hxyval]
          exact hge
      · by_cases ht1 : token_in = 1
        · rw [if_neg ht0, if_pos ht1] at hbody
          rw [pydiv_mul_E18, ok_bind] at hbody
          cases hyv : _get_y_aerodrome (amount_in - q + reserves1) xy reserves0
              (10 ^ 18) (10 ^ 18) with
          | error e =>
            rw [hyv, error_bind] at hbody; exact absurd hbody (by simp)
          | ok yv =>
            rw [hyv, ok_bind] at hbody
            simp only [] at hbody
            rw [Int.mul_fdiv_cancel _ hne] at hbody
            simp only [pure, Except.pure, Except.ok.injEq] at hbody
            have hge := aerodromeLoop_E18_f_ge 255 (amount_in - q + reserves1)
              xy reserves0 yv hyv
            rw [if_neg ht0, if_neg ht0, ← hq, ← hbody]
            have hyy : reserves0 - (reserves0 - yv) = yv := by ring
            rw [hyy, ← hxyval]
            exact hge
        · rw [if_neg ht0, if_neg ht1] at hbody
          exact absurd hbody (by simp)

/-- C2 witness: the amended theorem applied at an equal-reserves 18-decimals
stable swap with a 0.3% fee. -/
theorem stable_swap_invariant_nondecreasing_18_decimals_witness :
    solidly_calc_exact_in_stable (10 ^ 17) 0 (10 ^ 18) (10 ^ 18) (10 ^ 18)
        (10 ^ 18) ⟨3, 1000⟩ = .ok 99650648023124773 ∧
    _f_aerodrome (10 ^ 18) (10 ^ 18) ≤
      _f_aerodrome ((10 ^ 17 - ((10 ^ 17 : Int) * 3).fdiv 1000) + 10 ^ 18)
        (10 ^ 18 - 99650648023124773) := by
  have h : solidly_calc_exact_in_stable (10 ^ 17) 0 (10 ^ 18) (10 ^ 18)
      (10 ^ 18) (10 ^ 18) ⟨3, 1000⟩ = .ok 99650648023124773 := by decide
  have h2 := stable_swap_invariant_nondecreasing_18_decimals (10 ^ 17) 0
    (10 ^ 18) (10 ^ 18) ⟨3, 1000⟩ 99650648023124773 h
  refine ⟨h, ?_⟩
  simpa using h2

/-- C7 counterexample: the low-level volatile solver does not reject a
non-positive input amount: at `amount_in = 0` it raises no `ZeroSwapError`
and returns 0. -/
theorem solidly_volatile_zero_amount_counterexample :
    solidly_calc_exact_in_volatile 0 0 100 100 ⟨3, 1000⟩ = .ok 0 := by decide

/-- C7 (amended): the pool facade `calculate_tokens_out_from_tokens_in`
rejects a `token_in` outside {token0, token1} with
`DegenbotValueError` (the library's `ValueError`) for every state and
override (so before any reserve is read), and rejects a non-positive amount
with `ZeroSwapError`; the low-level solver
`solidly_calc_exact_in_volatile` performs no such check and computes the
constant-product formula even for `amount_in ≤ 0`. -/
theorem facade_validates_solver_does_not :
    (∀ (self : AerodromeV2Pool) (token_in : Nat) (token_in_quantity : Int)
        (override_state : Option AerodromeV2PoolState),
      token_in ≠ self.token0 → token_in ≠ self.token1 →
      calculate_tokens_out_from_tokens_in self token_in token_in_quantity
          override_state =
        .error (.degenbotValueError "token_in not recognized.")) ∧
    (∀ (self : AerodromeV2Pool) (token_in : Nat) (token_in_quantity : Int)
        (override_state : Option AerodromeV2PoolState),
      (token_in = self.token0 ∨ token_in = self.token1) →
      token_in_quantity ≤ 0 →
      calculate_tokens_out_from_tokens_in self token_in token_in_quantity
          override_state =
        .error (.zeroSwap "token_in_quantity must be positive")) ∧
    (∀ (amount_in reserves0 reserves1 : Int) (fee : Fraction),
      amount_in ≤ 0 → 0 < fee.denominator →
      reserves0 +
          (amount_in - (amount_in * fee.numerator).fdiv fee.denominator) ≠ 0 →
      solidly_calc_exact_in_volatile amount_in 0 reserves0 reserves1 fee =
        .ok (((amount_in -
            (amount_in * fee.numerator).fdiv fee.denominator) *
            reserves1).fdiv
          (reserves0 +
            (amount_in - (amount_in * fee.numerator).fdiv fee.denominator)))) := by
  refine ⟨fun self tin q ov h0 h1 => ?_, fun self tin q ov hmem hq => ?_,
    fun a r0 r1 fee _ hden hnz => ?_⟩
  · simp only [calculate_tokens_out_from_tokens_in]
    rw [if_pos ⟨h0, h1⟩]
  · simp only [calculate_tokens_out_from_tokens_in]
    rw [if_neg (by rcases hmem with h | h <;> simp [h]), if_pos hq]
  · simp_all [solidly_calc_exact_in_volatile, pydiv, hden.ne']

/-- C7 witness: the amended theorem applied at a concrete pool (tokens 10 and
20), an unknown token 30, a zero quantity, and a zero-amount solver call. -/
theorem facade_validates_solver_does_not_witness :
    calculate_tokens_out_from_tokens_in
        ⟨10, 20, 18, 6, ⟨3, 1000⟩, false, ⟨99, 500, 700⟩⟩ 30 5 none =
      .error (.degenbotValueError "token_in not recognized.") ∧
    calculate_tokens_out_from_tokens_in
        ⟨10, 20, 18, 6, ⟨3, 1000⟩, false, ⟨99, 500, 700⟩⟩ 10 0 none =
      .error (.zeroSwap "token_in_quantity must be positive") ∧
    solidly_calc_exact_in_volatile 0 0 100 100 ⟨3, 1000⟩ =
      .ok (((0 - ((0 : Int) * 3).fdiv 1000) * 100).fdiv
        (100 + (0 - ((0 : Int) * 3).fdiv 1000))) :=
  ⟨facade_validates_solver_does_not.1 _ 30 5 none (by decide) (by decide),
    facade_validates_solver_does_not.2.1 _ 10 0 none (Or.inl rfl) (by decide),
    facade_validates_solver_does_not.2.2 0 100 100 ⟨3, 1000⟩ (by decide)
      (by decide) (by decide)⟩

end Degenbot
